import Mathlib

/-!
Verification of the customer-experience dashboard's data-access layer
(`src/dashboard/app.py`, `src/dashboard/app_v2_final.py`,
`src/dashboard/test.py`) against its natural-language specification.

The pandas/SQL layer is shallowly embedded: a table is a list of rows,
a nullable column is a list of `Option` values, and elementwise float
division is modelled by `PFloat`, an extended-rational type that records
exactly the IEEE-754 classification (finite / +inf / -inf / NaN) that
pandas' `/` operator produces on finite operands.
-/

namespace Dashboard

/-- Result of an elementwise pandas float operation: a finite value
(represented exactly as a rational), a signed infinity, or NaN.
NaN is also pandas' missing-value marker (`isna` is true of it). -/
inductive PFloat where
  | val (q : ℚ)
  | posInf
  | negInf
  | nan
deriving DecidableEq, Repr

/-- IEEE-754 division of two finite values, as performed elementwise by
pandas' `/` on numeric columns: `0/0 = NaN`, `x/0 = ±inf` for `x ≠ 0`,
finite quotient otherwise. -/
def pandasDiv (a b : ℚ) : PFloat :=
  if b = 0 then
    if a = 0 then PFloat.nan
    else if 0 < a then PFloat.posInf
    else PFloat.negInf
  else PFloat.val (a / b)

/-- A row of the `campaigns` table (§3 of the spec): `roi` is nullable,
the count/currency columns are finite numerics. -/
structure CampaignRow where
  campaign_name : String
  campaign_type : String
  clicks : ℚ
  impressions : ℚ
  budget : ℚ
  conversion_rate : ℚ
  roi : Option ℚ
deriving DecidableEq, Repr

/-- A campaign row after the tab-6 derivations of `app_v2_final.py`
lines 226-228 (identical in `test.py` lines 183-185): the original
columns plus `CTR`, `CPC` and `roi_clean`. -/
structure CampaignRowD where
  campaign_name : String
  campaign_type : String
  clicks : ℚ
  impressions : ℚ
  budget : ℚ
  conversion_rate : ℚ
  roi : Option ℚ
  CTR : PFloat
  CPC : PFloat
  roi_clean : ℚ
deriving DecidableEq, Repr

/-- The tab-6 column derivations, per row:
`df["CTR"] = df["clicks"] / df["impressions"]`,
`df["CPC"] = df["budget"] / df["clicks"]`,
`df["roi_clean"] = df["roi"].abs().fillna(0.01)`
(abs of NaN is NaN, so a null `roi` becomes `0.01`). -/
def deriveCampaignRow (r : CampaignRow) : CampaignRowD :=
  { campaign_name := r.campaign_name
    campaign_type := r.campaign_type
    clicks := r.clicks
    impressions := r.impressions
    budget := r.budget
    conversion_rate := r.conversion_rate
    roi := r.roi
    CTR := pandasDiv r.clicks r.impressions
    CPC := pandasDiv r.budget r.clicks
    roi_clean := match r.roi with
      | some x => |x|
      | none => 1 / 100 }

/-- The whole campaigns tab derivation applied to the table. -/
def campaignsTab (t : List CampaignRow) : List CampaignRowD :=
  t.map deriveCampaignRow

/-- The y-series of the ROI bar chart (`fig_roi`, `y="roi"`): the
original, unfilled `roi` column of the derived table. -/
def figRoiY (t : List CampaignRowD) : List (Option ℚ) :=
  t.map (fun r => r.roi)

/-- The size channel of the CTR scatter chart (`fig_ctr`,
`size="roi_clean"`). -/
def figCtrSize (t : List CampaignRowD) : List ℚ :=
  t.map (fun r => r.roi_clean)

/-- A concrete campaign row with positive clicks and zero impressions,
exhibiting an infinite CTR. -/
def campaignInfRow : CampaignRow :=
  { campaign_name := "c1", campaign_type := "email", clicks := 5,
    impressions := 0, budget := 10, conversion_rate := 0, roi := some 1 }

end Dashboard

namespace Dashboard

/-- C1, counterexample: the CTR derivation on a row with `clicks = 5`,
`impressions = 0` yields positive infinity in the new column, so the
derivation does propagate infinity for a zero denominator, contradicting
the claim that it never yields infinity or NaN. -/
theorem ctr_zero_denominator_yields_infinity :
    (campaignsTab [campaignInfRow]).map (fun r => r.CTR) = [PFloat.posInf] := by
  decide

/-- C1, amended: the tab-6 ratio derivation performs unguarded division,
so a zero denominator with zero numerator yields NaN (pandas' null
marker) and a zero denominator with nonzero numerator yields a signed
infinity; in particular `clicks = 0, impressions = 0` gives `CTR = NaN`
and the CPC column on such a row is NaN or ±infinity according to the
sign of `budget`. -/
theorem ctr_cpc_zero_denominator (r : CampaignRow)
    (hi : r.impressions = 0) (hc : r.clicks = 0) :
    (deriveCampaignRow r).CTR = PFloat.nan ∧
    (deriveCampaignRow r).CPC =
      (if r.budget = 0 then PFloat.nan
       else if 0 < r.budget then PFloat.posInf else PFloat.negInf) := by
  refine ⟨?_, ?_⟩
  · simp [deriveCampaignRow, pandasDiv, hi, hc]
  · simp [deriveCampaignRow, pandasDiv, hc]

/-- C1 witness: on the concrete row `clicks = 0, impressions = 0,
budget = 10`, CTR is NaN and CPC is +infinity. -/
theorem ctr_cpc_zero_denominator_witness :
    (deriveCampaignRow
        { campaign_name := "c0", campaign_type := "sms", clicks := 0,
          impressions := 0, budget := 10, conversion_rate := 0,
          roi := none }).CTR = PFloat.nan ∧
    (deriveCampaignRow
        { campaign_name := "c0", campaign_type := "sms", clicks := 0,
          impressions := 0, budget := 10, conversion_rate := 0,
          roi := none }).CPC =
      (if (10 : ℚ) = 0 then PFloat.nan
       else if 0 < (10 : ℚ) then PFloat.posInf else PFloat.negInf) :=
  ctr_cpc_zero_denominator
    { campaign_name := "c0", campaign_type := "sms", clicks := 0,
      impressions := 0, budget := 10, conversion_rate := 0, roi := none }
    rfl rfl

/-- A generic table row: an association list from column name to the
cell's string value (categorical columns only ever meet string
equality in the filter code). -/
def FRow := List (String × String)

instance : DecidableEq FRow := by
  unfold FRow
  infer_instance

/-- Value of a row in a named column, `none` when the row has no such
field (pandas elementwise `==` is false on missing values). -/
def rowGet (r : FRow) (c : String) : Option String :=
  (r.find? (fun p => p.1 == c)).map (fun p => p.2)

/-- A dataframe: its column list and its rows. -/
structure FTable where
  cols : List String
  rows : List FRow
deriving DecidableEq

/-- `apply_filters` of `app_v2_final.py` lines 35-41: copies the frame,
then for each of the `city` and `gender` selections, if the column is
present in the frame and the selection is not the `"All"` sentinel,
keeps the rows whose value in that column equals the selection; a
missing column leaves that filter unapplied. -/
def apply_filters (city gender : String) (df : FTable) : FTable :=
  let f1 :=
    if "city" ∈ df.cols ∧ city ≠ "All" then
      { df with rows := df.rows.filter (fun r => rowGet r "city" = some city) }
    else df
  if "gender" ∈ df.cols ∧ gender ≠ "All" then
    { f1 with rows := f1.rows.filter (fun r => rowGet r "gender" = some gender) }
  else f1

/-- The three-row city/monetary table of the spec's scenarios. -/
def sdTable : FTable :=
  { cols := ["city", "monetary"]
    rows := [[("city", "SD"), ("monetary", "100")],
             [("city", "LA"), ("monetary", "50")],
             [("city", "SD"), ("monetary", "30")]] }

/-- A table that has a `gender` column but no `city` column. -/
def noCityTable : FTable :=
  { cols := ["gender", "monetary"]
    rows := [[("gender", "F"), ("monetary", "100")],
             [("gender", "M"), ("monetary", "50")]] }

/-- C2, counterexample: filtering `noCityTable` (which lacks a `city`
column) with the active selection `city = "SD"` returns the table with
the city filter silently skipped — every row survives and no error is
produced — contradicting the claim that a missing filter column fails
fast and is not computed as if the filter were absent. -/
theorem missing_column_silently_skipped :
    "city" ∉ noCityTable.cols ∧ "SD" ≠ "All" ∧
    apply_filters "SD" "All" noCityTable = noCityTable := by
  refine ⟨by decide, by decide, ?_⟩
  rfl

/-- C2, amended: if a column named by a filter entry is missing from the
table, `apply_filters` silently skips that filter and returns the result
computed as if that filter were absent (the selection replaced by the
`"All"` sentinel); no error is raised. -/
theorem missing_column_filter_absent (df : FTable) (city gender : String)
    (h : "city" ∉ df.cols) :
    apply_filters city gender df = apply_filters "All" gender df := by
  unfold apply_filters
  have hfalse : ¬("city" ∈ df.cols ∧ city ≠ "All") := fun hc => h hc.1
  have hfalse2 : ¬("city" ∈ df.cols ∧ "All" ≠ "All") := fun hc => hc.2 rfl
  rw [if_neg hfalse, if_neg hfalse2]

/-- C2 amended witness: on the concrete `noCityTable` with selection
`city = "SD"`, the result equals the gender-only filtering. -/
theorem missing_column_filter_absent_witness :
    "city" ∉ noCityTable.cols ∧
    apply_filters "SD" "F" noCityTable = apply_filters "All" "F" noCityTable :=
  ⟨by decide, missing_column_filter_absent noCityTable "SD" "F" (by decide)⟩

/-- C3: when every selection is the `"All"` sentinel, `apply_filters`
returns a table equal to its input (columns and row sequence, hence row
set); in the embedding tables are immutable values and the code's
`df.copy()` means the result is a fresh frame, so the source frame is
not mutated. -/
theorem apply_filters_all_sentinel (df : FTable) (city gender : String)
    (hc : city = "All") (hg : gender = "All") :
    apply_filters city gender df = df := by
  subst hc hg
  unfold apply_filters
  have h1 : ¬("city" ∈ df.cols ∧ "All" ≠ "All") := fun hx => hx.2 rfl
  have h2 : ¬("gender" ∈ df.cols ∧ "All" ≠ "All") := fun hx => hx.2 rfl
  rw [if_neg h1, if_neg h2]

/-- C3 witness: the all-sentinel filtering of the concrete scenario
table is the table itself. -/
theorem apply_filters_all_sentinel_witness :
    apply_filters "All" "All" sdTable = sdTable :=
  apply_filters_all_sentinel sdTable "All" "All" rfl rfl

/-- C4: on a table containing both filter columns, `apply_filters`
returns exactly the rows for which every non-`"All"` selection equals
the row's value in that column by case-sensitive string equality, the
filters combined by logical AND; and on the concrete scenario table,
selecting `city = "SD"` returns exactly the two SD rows with their
original field values. -/
theorem apply_filters_exact_rows (df : FTable) (city gender : String)
    (hc : "city" ∈ df.cols) (hg : "gender" ∈ df.cols) :
    ((apply_filters city gender df).cols = df.cols ∧
     (apply_filters city gender df).rows =
       df.rows.filter (fun r =>
         (city = "All" ∨ rowGet r "city" = some city) ∧
         (gender = "All" ∨ rowGet r "gender" = some gender))) ∧
    apply_filters "SD" "All" sdTable =
      { cols := ["city", "monetary"]
        rows := [[("city", "SD"), ("monetary", "100")],
                 [("city", "SD"), ("monetary", "30")]] } := by
  refine ⟨⟨?_, ?_⟩, by decide⟩
  · by_cases h1 : city = "All" <;> by_cases h2 : gender = "All" <;>
      simp [apply_filters, h1, h2, hc, hg]
  · by_cases h1 : city = "All" <;> by_cases h2 : gender = "All" <;>
      simp [apply_filters, h1, h2, hc, hg, Bool.and_comm]

/-- A concrete table carrying both filter columns. -/
def sdgTable : FTable :=
  { cols := ["city", "gender", "monetary"]
    rows := [[("city", "SD"), ("gender", "F"), ("monetary", "100")],
             [("city", "LA"), ("gender", "F"), ("monetary", "50")],
             [("city", "SD"), ("gender", "M"), ("monetary", "30")]] }

/-- C4 witness: the characterization instantiated on a concrete table
carrying both filter columns, with selections `city = "SD"`,
`gender = "F"`. -/
theorem apply_filters_exact_rows_witness :
    ((apply_filters "SD" "F" sdgTable).cols = sdgTable.cols ∧
     (apply_filters "SD" "F" sdgTable).rows =
       sdgTable.rows.filter (fun r =>
         ("SD" = "All" ∨ rowGet r "city" = some "SD") ∧
         ("F" = "All" ∨ rowGet r "gender" = some "F"))) ∧
    apply_filters "SD" "All" sdTable =
      { cols := ["city", "monetary"]
        rows := [[("city", "SD"), ("monetary", "100")],
                 [("city", "SD"), ("monetary", "30")]] } :=
  apply_filters_exact_rows sdgTable "SD" "F" (by decide) (by decide)

/-- `["All"] + sorted([str(x) for x in col.dropna().unique()])`
(`app.py` lines 21-22): drop nulls, deduplicate, sort ascending, and
prefix the `"All"` sentinel. Stringification is the identity here since
the categorical cells are modelled as strings. -/
def listDistinctValues (col : List (Option String)) : List String :=
  "All" :: List.insertionSort (fun a b => a ≤ b) (col.filterMap id).dedup

/-- C5: `listDistinctValues` returns the `"All"` sentinel followed by
the unique non-null values of the column in ascending sorted order,
with no duplicates and no null entries (membership in the tail is
exactly non-null occurrence in the column). -/
theorem listDistinctValues_spec (col : List (Option String)) :
    (listDistinctValues col).head? = some "All" ∧
    List.Sorted (fun a b => a ≤ b) (listDistinctValues col).tail ∧
    (listDistinctValues col).tail.Nodup ∧
    ∀ s : String, s ∈ (listDistinctValues col).tail ↔ some s ∈ col := by
  refine ⟨rfl, ?_, ?_, ?_⟩
  · exact List.sorted_insertionSort _ _
  · exact ((List.perm_insertionSort _ _).nodup_iff).mpr (List.nodup_dedup _)
  · intro s
    simp [listDistinctValues, List.mem_filterMap]

/-- `df.groupby(k)["v"].sum()`: pandas groups rows by key, sorts the
distinct keys ascending (`sort=True` default), and sums the value
column within each group. -/
def groupbySum (rows : List (String × ℚ)) : List (String × ℚ) :=
  (List.insertionSort (fun a b => a ≤ b) (rows.map Prod.fst).dedup).map
    (fun k => (k, ((rows.filter (fun r => r.1 = k)).map Prod.snd).sum))

/-- `.nlargest(n)`: the first `n` pairs after sorting by value
descending. -/
def nlargest (n : ℕ) (l : List (String × ℚ)) : List (String × ℚ) :=
  (List.insertionSort (fun a b => b.2 ≤ a.2) l).take n

/-- C6: grouping the scenario rows by city and summing monetary yields
exactly the pairs ("LA", 50) and ("SD", 130) (keys in pandas' sorted
order), and the top-1 group by value descending is ("SD", 130). -/
theorem groupbySum_scenario :
    groupbySum [("SD", 100), ("LA", 50), ("SD", 30)] =
      [("LA", 50), ("SD", 130)] ∧
    nlargest 1 (groupbySum [("SD", 100), ("LA", 50), ("SD", 30)]) =
      [("SD", 130)] := by
  have h1 : ("LA" : String) ≤ "SD" := by
    rw [String.le_iff_toList_le]
    decide
  have hd : ((([(("SD" : String), (100 : ℚ)), ("LA", 50), ("SD", 30)]).map
      Prod.fst).dedup) = ["LA", "SD"] := by decide
  have hg : groupbySum [("SD", 100), ("LA", 50), ("SD", 30)] =
      [("LA", 50), ("SD", 130)] := by
    unfold groupbySum
    rw [hd]
    simp [List.insertionSort, List.orderedInsert, h1, List.filter]
    norm_num
  refine ⟨hg, ?_⟩
  rw [hg]
  have h2 : ¬ ((130 : ℚ) ≤ 50) := by norm_num
  simp [nlargest, List.insertionSort, List.orderedInsert, h2]

/-- A row of the enriched customer table as consumed by the overview
tab of `test.py`. -/
structure EnrichedRow where
  city : String
  gender : String
  monetary : ℚ
  has_transaction : ℚ
  avg_support_score : ℚ
deriving DecidableEq

/-- A row of the predicted customer table as consumed by `test.py`. -/
structure PredictedRow where
  city : String
  gender : String
  churn_flag : ℚ
deriving DecidableEq

/-- The filter block of `test.py` lines 31-35: copy `df_enriched`, then
narrow by each non-`"All"` selection. -/
def filterEnriched (city gender : String) (df : List EnrichedRow) :
    List EnrichedRow :=
  let f1 := if city = "All" then df else df.filter (fun r => r.city = city)
  if gender = "All" then f1 else f1.filter (fun r => r.gender = gender)

/-- The four overview metrics of `test.py` lines 52-56: revenue, active
count and satisfaction come from the filtered enriched table, while
`churn_rate = (df_predicted["churn_flag"]==1).mean()*100` is computed
on the unfiltered predicted table. -/
structure OverviewMetrics where
  total_revenue : ℚ
  active_customers : ℕ
  avg_satisfaction : ℚ
  churn_rate : ℚ
deriving DecidableEq

/-- The overview tab of `test.py` as a function of the loaded tables
and the sidebar selections. -/
def overviewMetrics (dfe : List EnrichedRow) (dfp : List PredictedRow)
    (city gender : String) : OverviewMetrics :=
  let filtered := filterEnriched city gender dfe
  { total_revenue := (filtered.map (fun r => r.monetary)).sum
    active_customers := (filtered.filter (fun r => r.has_transaction = 1)).length
    avg_satisfaction :=
      (filtered.map (fun r => r.avg_support_score)).sum / (filtered.length : ℚ)
    churn_rate :=
      ((dfp.filter (fun r => r.churn_flag = 1)).length : ℚ) / (dfp.length : ℚ) * 100 }

/-- C9: the Churn Rate metric of `test.py` is computed on the
unfiltered predicted table, so any two city/gender filter selections
over the same loaded tables produce the identical `churn_rate` value. -/
theorem churn_rate_filter_independent (dfe : List EnrichedRow)
    (dfp : List PredictedRow) (c1 g1 c2 g2 : String) :
    (overviewMetrics dfe dfp c1 g1).churn_rate =
      (overviewMetrics dfe dfp c2 g2).churn_rate := rfl

/-- C8: the null-handling policy for `roi` fills a separate chart-sizing
column `roi_clean` with `|roi|`, nulls becoming `0.01`, while the `roi`
column itself is unchanged by the derivation and the ROI bar chart's
y-series is the original, unfilled `roi` column. -/
theorem roi_clean_policy (t : List CampaignRow) :
    (campaignsTab t).map (fun r => r.roi) = t.map (fun r => r.roi) ∧
    (campaignsTab t).map (fun r => r.roi_clean) =
      t.map (fun r => match r.roi with | some x => |x| | none => 1 / 100) ∧
    figRoiY (campaignsTab t) = t.map (fun r => r.roi) ∧
    figCtrSize (campaignsTab t) = (campaignsTab t).map (fun r => r.roi_clean) := by
  refine ⟨?_, ?_, ?_, rfl⟩
  · simp [campaignsTab, deriveCampaignRow]
  · simp [campaignsTab, deriveCampaignRow]
  · simp [figRoiY, campaignsTab, deriveCampaignRow]

/-- `series.min()` on a nonempty numeric column (pandas returns the
least value; the empty case is irrelevant to the claims and mapped to
0). -/
def colMin (l : List ℚ) : ℚ :=
  match l with
  | [] => 0
  | x :: xs => xs.foldl min x

/-- `series.max()` on a nonempty numeric column. -/
def colMax (l : List ℚ) : ℚ :=
  match l with
  | [] => 0
  | x :: xs => xs.foldl max x

/-- The overview-tab normalization of `app_v2_final.py` lines 69-72:
`(recency_days - min) / (max - min)` elementwise over the filtered
column, with pandas float division semantics. -/
def recencyNorm (l : List ℚ) : List PFloat :=
  l.map (fun x => pandasDiv (x - colMin l) (colMax l - colMin l))

theorem foldl_min_le_init : ∀ (xs : List ℚ) (x : ℚ), xs.foldl min x ≤ x
  | [], _ => le_refl _
  | z :: zs, x =>
      le_trans (foldl_min_le_init zs (min x z)) (min_le_left _ _)

theorem foldl_min_le_mem :
    ∀ (xs : List ℚ) (x y : ℚ), y ∈ xs → xs.foldl min x ≤ y := by
  intro xs
  induction xs with
  | nil => intro x y hy; cases hy
  | cons z zs ih =>
      intro x y hy
      rcases List.mem_cons.mp hy with rfl | hy
      · exact le_trans (foldl_min_le_init zs (min x y)) (min_le_right _ _)
      · exact ih (min x z) y hy

theorem foldl_min_mem : ∀ (xs : List ℚ) (x : ℚ), xs.foldl min x ∈ x :: xs := by
  intro xs
  induction xs with
  | nil => intro x; exact List.mem_singleton.mpr rfl
  | cons z zs ih =>
      intro x
      have h := ih (min x z)
      simp only [List.foldl_cons]
      rcases List.mem_cons.mp h with he | hm
      · rcases min_choice x z with hc | hc
        · rw [he, hc]; exact List.mem_cons_self _ _
        · rw [he, hc]; exact List.mem_cons_of_mem _ (List.mem_cons_self _ _)
      · exact List.mem_cons_of_mem _ (List.mem_cons_of_mem _ hm)

theorem le_foldl_max_init : ∀ (xs : List ℚ) (x : ℚ), x ≤ xs.foldl max x
  | [], _ => le_refl _
  | z :: zs, x =>
      le_trans (le_max_left _ _) (le_foldl_max_init zs (max x z))

theorem le_foldl_max_mem :
    ∀ (xs : List ℚ) (x y : ℚ), y ∈ xs → y ≤ xs.foldl max x := by
  intro xs
  induction xs with
  | nil => intro x y hy; cases hy
  | cons z zs ih =>
      intro x y hy
      rcases List.mem_cons.mp hy with rfl | hy
      · exact le_trans (le_max_right _ _) (le_foldl_max_init zs (max x y))
      · exact ih (max x z) y hy

theorem foldl_max_mem : ∀ (xs : List ℚ) (x : ℚ), xs.foldl max x ∈ x :: xs := by
  intro xs
  induction xs with
  | nil => intro x; exact List.mem_singleton.mpr rfl
  | cons z zs ih =>
      intro x
      have h := ih (max x z)
      simp only [List.foldl_cons]
      rcases List.mem_cons.mp h with he | hm
      · rcases max_choice x z with hc | hc
        · rw [he, hc]; exact List.mem_cons_self _ _
        · rw [he, hc]; exact List.mem_cons_of_mem _ (List.mem_cons_self _ _)
      · exact List.mem_cons_of_mem _ (List.mem_cons_of_mem _ hm)

theorem colMin_le {l : List ℚ} {y : ℚ} (hy : y ∈ l) : colMin l ≤ y := by
  cases l with
  | nil => cases hy
  | cons x xs =>
      rcases List.mem_cons.mp hy with rfl | hy
      · exact foldl_min_le_init xs y
      · exact foldl_min_le_mem xs x y hy

theorem le_colMax {l : List ℚ} {y : ℚ} (hy : y ∈ l) : y ≤ colMax l := by
  cases l with
  | nil => cases hy
  | cons x xs =>
      rcases List.mem_cons.mp hy with rfl | hy
      · exact le_foldl_max_init xs y
      · exact le_foldl_max_mem xs x y hy

theorem colMin_mem {l : List ℚ} (h : l ≠ []) : colMin l ∈ l := by
  cases l with
  | nil => exact absurd rfl h
  | cons x xs => exact foldl_min_mem xs x

theorem colMax_mem {l : List ℚ} (h : l ≠ []) : colMax l ∈ l := by
  cases l with
  | nil => exact absurd rfl h
  | cons x xs => exact foldl_max_mem xs x

/-- C10: on a nonempty filtered recency column, if at least two values
are distinct then every `recency_norm` entry is a finite number in
[0, 1]; if all values are equal (a single-row result included) the
denominator `max - min` is 0 and every entry is NaN, hence not a number
in [0, 1]. -/
theorem recencyNorm_range_or_nan (l : List ℚ) (h : l ≠ []) :
    ((∃ a ∈ l, ∃ b ∈ l, a ≠ b) →
        ∀ e ∈ recencyNorm l, ∃ q : ℚ, e = PFloat.val q ∧ 0 ≤ q ∧ q ≤ 1) ∧
    ((∀ a ∈ l, ∀ b ∈ l, a = b) →
        ∀ e ∈ recencyNorm l, e = PFloat.nan) := by
  constructor
  · rintro ⟨a, ha, b, hb, hab⟩ e he
    have hlt : colMin l < colMax l := by
      rcases lt_or_gt_of_ne hab with h1 | h1
      · exact lt_of_le_of_lt (colMin_le ha) (lt_of_lt_of_le h1 (le_colMax hb))
      · exact lt_of_le_of_lt (colMin_le hb) (lt_of_lt_of_le h1 (le_colMax ha))
    obtain ⟨x, hx, rfl⟩ := List.mem_map.mp he
    have hpos : 0 < colMax l - colMin l := sub_pos.mpr hlt
    have hd : colMax l - colMin l ≠ 0 := ne_of_gt hpos
    refine ⟨(x - colMin l) / (colMax l - colMin l), ?_, ?_, ?_⟩
    · simp [pandasDiv, hd]
    · exact div_nonneg (sub_nonneg.mpr (colMin_le hx)) (le_of_lt hpos)
    · rw [div_le_one hpos]
      exact sub_le_sub_right (le_colMax hx) _
  · intro hall e he
    obtain ⟨x, hx, rfl⟩ := List.mem_map.mp he
    have h1 : colMin l = x := hall _ (colMin_mem h) _ hx
    have h2 : colMax l = colMin l := hall _ (colMax_mem h) _ (colMin_mem h)
    rw [← h1, h2]
    simp [pandasDiv]

/-- The pair of values of a row at columns `i` and `j`, when both are
non-null. -/
def rowPair (i j : ℕ) (r : List (Option ℚ)) : Option (ℚ × ℚ) :=
  match r.getD i none, r.getD j none with
  | some a, some b => some (a, b)
  | _, _ => none

/-- Pairwise-complete-case extraction performed by pandas `.corr()`:
for columns `i` and `j` of a row-major table of nullable numerics, the
list of value pairs from the rows where both columns are non-null. -/
def pairsCol (t : List (List (Option ℚ))) (i j : ℕ) : List (ℚ × ℚ) :=
  t.filterMap (rowPair i j)

/-- Subtract the column mean from every entry. -/
def demean (l : List ℚ) : List ℚ :=
  l.map (fun x => x - l.sum / (l.length : ℚ))

/-- Dot product of two columns. -/
def sdot (a b : List ℚ) : ℚ :=
  (List.zipWith (fun x y => x * y) a b).sum

/-- Centered cross-moment of a list of pairs (the numerator of the
Pearson correlation, common normalizations cancelled). -/
def covS (ps : List (ℚ × ℚ)) : ℚ :=
  sdot (demean (ps.map Prod.fst)) (demean (ps.map Prod.snd))

/-- Centered second moment of a column: zero exactly when the
(pairwise-complete) sample variance is zero. -/
def varS (l : List ℚ) : ℚ :=
  sdot (demean l) (demean l)

/-- One entry of the pandas `.corr()` Pearson matrix over the
pairwise-complete observations of columns `i` and `j`. -/
noncomputable def corrEntry (t : List (List (Option ℚ))) (i j : ℕ) : ℝ :=
  ((covS (pairsCol t i j) : ℚ) : ℝ) /
    Real.sqrt (((varS ((pairsCol t i j).map Prod.fst) : ℚ) : ℝ) *
      ((varS ((pairsCol t i j).map Prod.snd) : ℚ) : ℝ))

theorem rowPair_swap (i j : ℕ) (r : List (Option ℚ)) :
    rowPair j i r = (rowPair i j r).map Prod.swap := by
  unfold rowPair
  rcases r.getD i none with _ | a <;> rcases r.getD j none with _ | b <;> rfl

theorem pairsCol_swap (t : List (List (Option ℚ))) (i j : ℕ) :
    pairsCol t j i = (pairsCol t i j).map Prod.swap := by
  unfold pairsCol
  rw [show rowPair j i = fun r => (rowPair i j r).map Prod.swap from
    funext (rowPair_swap i j)]
  rw [List.map_filterMap]

theorem rowPair_diag (i : ℕ) (r : List (Option ℚ)) :
    rowPair i i r = (r.getD i none).map (fun a => (a, a)) := by
  unfold rowPair
  rcases r.getD i none with _ | a <;> rfl

theorem pairsCol_diag (t : List (List (Option ℚ))) (i : ℕ) :
    pairsCol t i i = (t.filterMap (fun r => r.getD i none)).map (fun a => (a, a)) := by
  unfold pairsCol
  rw [show rowPair i i = fun r => (r.getD i none).map (fun a => (a, a)) from
    funext (rowPair_diag i)]
  rw [List.map_filterMap]

theorem sdot_comm (a b : List ℚ) : sdot a b = sdot b a := by
  unfold sdot
  rw [List.zipWith_comm_of_comm _ mul_comm]

theorem sdot_self_nonneg : ∀ l : List ℚ, 0 ≤ sdot l l
  | [] => le_refl 0
  | x :: xs => by
      have h := sdot_self_nonneg xs
      unfold sdot at h ⊢
      simp only [List.zipWith_cons_cons, List.sum_cons]
      exact add_nonneg (mul_self_nonneg x) h

theorem varS_nonneg (l : List ℚ) : 0 ≤ varS l :=
  sdot_self_nonneg _

theorem map_fst_swap (ps : List (ℚ × ℚ)) :
    (ps.map Prod.swap).map Prod.fst = ps.map Prod.snd := by
  simp [List.map_map, Function.comp_def]

theorem map_snd_swap (ps : List (ℚ × ℚ)) :
    (ps.map Prod.swap).map Prod.snd = ps.map Prod.fst := by
  simp [List.map_map, Function.comp_def]

theorem covS_map_swap (ps : List (ℚ × ℚ)) : covS (ps.map Prod.swap) = covS ps := by
  unfold covS
  rw [map_fst_swap, map_snd_swap, sdot_comm]

/-- C7: the pandas correlation matrix over pairwise-complete
observations is symmetric in its column indices, and a diagonal entry
equals 1 whenever the column's centered second moment (equivalently,
its variance over the non-null entries) is nonzero. -/
theorem corrEntry_symm_diag_one (t : List (List (Option ℚ))) (i j : ℕ) :
    corrEntry t i j = corrEntry t j i ∧
    (varS ((pairsCol t i i).map Prod.fst) ≠ 0 → corrEntry t i i = 1) := by
  constructor
  · unfold corrEntry
    rw [pairsCol_swap t i j, covS_map_swap, map_fst_swap, map_snd_swap, mul_comm]
  · intro hv
    have hfs : (pairsCol t i i).map Prod.snd = (pairsCol t i i).map Prod.fst := by
      rw [pairsCol_diag]
      simp [List.map_map, Function.comp_def]
    have hcov : covS (pairsCol t i i) = varS ((pairsCol t i i).map Prod.fst) := by
      unfold covS varS
      rw [hfs]
    unfold corrEntry
    rw [hcov, hfs]
    have h0 : (0 : ℝ) ≤ ((varS ((pairsCol t i i).map Prod.fst) : ℚ) : ℝ) := by
      exact_mod_cast varS_nonneg _
    have hne : ((varS ((pairsCol t i i).map Prod.fst) : ℚ) : ℝ) ≠ 0 := by
      exact_mod_cast hv
    rw [Real.sqrt_mul_self h0]
    exact div_self hne

/-- C7 witness: on the one-column table with values 1 and 3, the
centered second moment is nonzero and the diagonal correlation entry
is 1. -/
theorem corrEntry_symm_diag_one_witness :
    varS ((pairsCol [[some 1], [some 3]] 0 0).map Prod.fst) ≠ 0 ∧
    corrEntry [[some 1], [some 3]] 0 0 = 1 := by
  have hp : pairsCol [[some 1], [some 3]] 0 0 = [(1, 1), (3, 3)] := by decide
  have hv : varS ((pairsCol [[some 1], [some 3]] 0 0).map Prod.fst) ≠ 0 := by
    rw [hp]
    norm_num [varS, demean, sdot, List.sum_cons, List.sum_nil]
  exact ⟨hv, (corrEntry_symm_diag_one [[some 1], [some 3]] 0 0).2 hv⟩

/-- C10 witness: on the column [1, 3] (two distinct values) every
normalized entry is finite and in [0, 1]; on the column [2, 2] (all
values equal) every entry is NaN. -/
theorem recencyNorm_range_or_nan_witness :
    (∀ e ∈ recencyNorm [1, 3], ∃ q : ℚ, e = PFloat.val q ∧ 0 ≤ q ∧ q ≤ 1) ∧
    (∀ e ∈ recencyNorm [2, 2], e = PFloat.nan) :=
  ⟨(recencyNorm_range_or_nan [1, 3] (by decide)).1
      ⟨1, by decide, 3, by decide, by decide⟩,
   (recencyNorm_range_or_nan [2, 2] (by decide)).2 (by decide)⟩

end Dashboard
